import Mathlib

/-!
Shallow embedding of `persNamer.py` (single-file Python tool resolving a VIAF
identifier to a person record and a deterministic XML slug).

Python strings are modelled as Lean `String` (a structure over `List Char`);
most workers operate on `List Char` directly.  Python regular-expression
character classes `[a-z]`, `[A-Z]`, `[^a-zA-Z0-9]` are ASCII, and are modelled
as the corresponding ASCII range tests.  The `\d` class and `str.strip` /
`str.split` whitespace are modelled on the ASCII alphabet of the authority
data handled by the tool.  The Unicode tables consulted by the source
(`unicodedata.normalize('NFKD', ...)`, `unicodedata.combining`, `str.lower`)
are modelled by finite tables restricted to the characters appearing in this
development, identity elsewhere.
-/

namespace PersNamer

/-- ASCII lowercase letter test, the regex class `[a-z]` of the source. -/
def isAsciiLower (c : Char) : Bool := 'a' ≤ c && c ≤ 'z'

/-- ASCII uppercase letter test, the regex class `[A-Z]` of the source. -/
def isAsciiUpper (c : Char) : Bool := 'A' ≤ c && c ≤ 'Z'

/-- ASCII digit test, the regex class `\d` of the source (the source's `\d`
is Unicode-aware; it is modelled on ASCII digits, the alphabet of the
authority dates the tool handles). -/
def isAsciiDigit (c : Char) : Bool := '0' ≤ c && c ≤ '9'

/-- ASCII alphanumeric test: the characters kept by the source's
`re.sub(r'[^a-zA-Z0-9]', '', ...)` deletion. -/
def isAsciiAlnum (c : Char) : Bool := isAsciiLower c || isAsciiUpper c || isAsciiDigit c

/-- ASCII letter test. -/
def isAsciiLetter (c : Char) : Bool := isAsciiLower c || isAsciiUpper c

/-- Whitespace recognised by Python's `str.strip()` / `str.split()`,
modelled on the ASCII whitespace characters. -/
def isPySpace (c : Char) : Bool :=
  c = ' ' || c = '\t' || c = '\n' || c = '\r' || c.toNat = 11 || c.toNat = 12

/-- Python's `str.lower()` on a single character: ASCII A-Z are shifted to
a-z, other ASCII characters are unchanged; outside ASCII the Unicode simple
lowercase mapping is modelled by a finite table (identity elsewhere). -/
def pyLower (c : Char) : Char :=
  if c.toNat < 128 then
    (if isAsciiUpper c then Char.ofNat (c.toNat + 32) else c)
  else if c = 'À' then 'à'
  else if c = 'É' then 'é'
  else if c = 'È' then 'è'
  else if c = 'Ö' then 'ö'
  else if c = 'Ü' then 'ü'
  else c

/-- Python's `str.strip()` on a character list: drop leading and trailing
whitespace. -/
def pyStrip (l : List Char) : List Char :=
  ((l.dropWhile isPySpace).reverse.dropWhile isPySpace).reverse

/-- Helper for `pySplit`: accumulates the current word (reversed). -/
def pySplitAux : List Char → List Char → List (List Char)
  | [], acc => if acc.isEmpty then [] else [acc.reverse]
  | c :: r, acc =>
    if isPySpace c then
      (if acc.isEmpty then pySplitAux r [] else acc.reverse :: pySplitAux r [])
    else pySplitAux r (c :: acc)

/-- Python's `str.split()` with no argument: split on runs of whitespace,
discarding empty pieces. -/
def pySplit (l : List Char) : List (List Char) := pySplitAux l []

/-- Last token of a token list (`tokens[-1]` in the source); `[]` on an
empty list, which the source never reaches on this path. -/
def lastTok : List (List Char) → List Char
  | [] => []
  | [t] => t
  | _ :: t :: r => lastTok (t :: r)

/-- Unicode NFKD (compatibility) decomposition of a single character, as
consulted by `unicodedata.normalize('NFKD', ...)` in the source; the table
is restricted to the characters appearing in this development (ASCII is
decomposition-free, precomposed Latin letters split into base letter plus
combining mark, and the compatibility character SUPERSCRIPT TWO maps to the
plain digit), identity elsewhere. -/
def nfkdChar (c : Char) : List Char :=
  if c.toNat < 128 then [c]
  else if c = 'à' then ['a', '\u0300']
  else if c = 'á' then ['a', '\u0301']
  else if c = 'â' then ['a', '\u0302']
  else if c = 'ä' then ['a', '\u0308']
  else if c = 'ç' then ['c', '\u0327']
  else if c = 'è' then ['e', '\u0300']
  else if c = 'é' then ['e', '\u0301']
  else if c = 'ê' then ['e', '\u0302']
  else if c = 'ë' then ['e', '\u0308']
  else if c = 'î' then ['i', '\u0302']
  else if c = 'ï' then ['i', '\u0308']
  else if c = 'ñ' then ['n', '\u0303']
  else if c = 'ô' then ['o', '\u0302']
  else if c = 'ö' then ['o', '\u0308']
  else if c = 'ù' then ['u', '\u0300']
  else if c = 'û' then ['u', '\u0302']
  else if c = 'ü' then ['u', '\u0308']
  else if c = 'À' then ['A', '\u0300']
  else if c = 'É' then ['E', '\u0301']
  else if c = 'È' then ['E', '\u0300']
  else if c = '²' then ['2']
  else [c]

/-- Unicode canonical (NFD) decomposition of a single character, following
the claim's words ("Unicode canonical decomposition"); it agrees with the
compatibility table on precomposed Latin letters but leaves compatibility
characters such as SUPERSCRIPT TWO intact.  Same finite-table restriction
as `nfkdChar`. -/
def canonicalDecompChar (c : Char) : List Char :=
  if c.toNat < 128 then [c]
  else if c = 'à' then ['a', '\u0300']
  else if c = 'á' then ['a', '\u0301']
  else if c = 'â' then ['a', '\u0302']
  else if c = 'ä' then ['a', '\u0308']
  else if c = 'ç' then ['c', '\u0327']
  else if c = 'è' then ['e', '\u0300']
  else if c = 'é' then ['e', '\u0301']
  else if c = 'ê' then ['e', '\u0302']
  else if c = 'ë' then ['e', '\u0308']
  else if c = 'î' then ['i', '\u0302']
  else if c = 'ï' then ['i', '\u0308']
  else if c = 'ñ' then ['n', '\u0303']
  else if c = 'ô' then ['o', '\u0302']
  else if c = 'ö' then ['o', '\u0308']
  else if c = 'ù' then ['u', '\u0300']
  else if c = 'û' then ['u', '\u0302']
  else if c = 'ü' then ['u', '\u0308']
  else if c = 'À' then ['A', '\u0300']
  else if c = 'É' then ['E', '\u0301']
  else if c = 'È' then ['E', '\u0300']
  else [c]

/-- Combining-mark test, the source's `unicodedata.combining(c)` being
nonzero, modelled on the Combining Diacritical Marks block U+0300..U+036F
that the decomposition tables above produce. -/
def isCombiningMark (c : Char) : Bool := 768 ≤ c.toNat && c.toNat ≤ 879

/-- Source `fix_name_spacing` (lines 10-16): insert a space wherever a
lowercase ASCII letter is immediately followed by an uppercase ASCII
letter (`re.sub(r'(?<=[a-z])(?=[A-Z])', ' ', name)`). -/
def fixSpacing : List Char → List Char
  | [] => []
  | [a] => [a]
  | a :: b :: r =>
    if isAsciiLower a && isAsciiUpper b then a :: ' ' :: fixSpacing (b :: r)
    else a :: fixSpacing (b :: r)

/-- Source `fix_name_spacing` at the `String` level. -/
def fix_name_spacing (s : String) : String := String.mk (fixSpacing s.data)

/-- Absence of any adjacent lowercase-letter/uppercase-letter pair: the
strings on which the spacing repair has nothing to insert. -/
def noLUpair : List Char → Bool
  | a :: b :: r => !(isAsciiLower a && isAsciiUpper b) && noLUpair (b :: r)
  | _ => true

/-- Family-token normalization of `generate_xml_id` (source lines 36-38):
NFKD-decompose, strip combining marks, delete every character outside
`[a-zA-Z0-9]`, then lowercase. -/
def normalizeFamily (family : List Char) : List Char :=
  (((family.map nfkdChar).flatten.filter (fun c => !(isCombiningMark c))).filter
      isAsciiAlnum).map pyLower

/-- Token list of `generate_xml_id` (source line 28): spacing-repaired name
split on whitespace. -/
def theTokens (name : List Char) : List (List Char) := pySplit (fixSpacing name)

/-- The `given` variable of `generate_xml_id` (source lines 29-34): first
token when there are at least two, otherwise the whole spacing-repaired
name string. -/
def givenOf (name : List Char) : List Char :=
  if 2 ≤ (theTokens name).length then (theTokens name).headD [] else fixSpacing name

/-- The `family` variable of `generate_xml_id` (source lines 29-34): last
token when there are at least two, otherwise the whole spacing-repaired
name string. -/
def familyOf (name : List Char) : List Char :=
  if 2 ≤ (theTokens name).length then lastTok (theTokens name) else fixSpacing name

/-- The `given_initial` of `generate_xml_id` (source line 39): lowercased
first character of the given string, empty if the given string is empty. -/
def givenInitial (given : List Char) : List Char :=
  match given with
  | [] => []
  | c :: _ => [pyLower c]

/-- Source `generate_xml_id` (lines 18-40): blank names fall back to
`pers-viaf-<id>` with the identifier verbatim; otherwise the slug is
`pers-<normalized family>-<given initial>`. -/
def generate_xml_id (full_name viaf : String) : String :=
  if full_name.data.isEmpty || (pyStrip full_name.data).isEmpty then
    "pers-viaf-" ++ viaf
  else
    String.mk ("pers-".data ++ normalizeFamily (familyOf full_name.data)
      ++ "-".data ++ givenInitial (givenOf full_name.data))

/-- Shape test of the source regex `^(\d{4})-(\d{2})-00$` (line 127). -/
def dateShape : List Char → Bool
  | [y1, y2, y3, y4, h1, m1, m2, h2, d1, d2] =>
    isAsciiDigit y1 && isAsciiDigit y2 && isAsciiDigit y3 && isAsciiDigit y4
      && h1 == '-' && isAsciiDigit m1 && isAsciiDigit m2 && h2 == '-'
      && d1 == '0' && d2 == '0'
  | _ => false

/-- Source `fix_date` (lines 126-130): a date matching
`^(\d{4})-(\d{2})-00$` is replaced by its four-digit year (`m.group(1)`);
anything else is returned unchanged. -/
def fix_date (s : String) : String :=
  if dateShape s.data then String.mk (s.data.take 4) else s

/-- Index-based restatement of the date-repair shape, following the amended
claim's words: exactly ten characters, four digits, a hyphen, two digits
(the month, zero included), a hyphen, and the literal day `00`. -/
def fixDateSpec (s : String) : String :=
  let l := s.data
  if l.length = 10 && (l.take 4).all isAsciiDigit && l.getD 4 ' ' == '-'
      && ((l.drop 5).take 2).all isAsciiDigit && l.getD 7 ' ' == '-'
      && l.getD 8 ' ' == '0' && l.getD 9 ' ' == '0' then
    String.mk (l.take 4)
  else s

/-- Character class of a well-formed slug: a hyphen of the template, a
lowercase ASCII letter, or an ASCII digit. -/
def isSlugChar (c : Char) : Bool := c == '-' || isAsciiLower c || isAsciiDigit c

/-- Head-of-given-token guard: the first character of the `given` string is
an ASCII alphanumeric character (vacuously true when it is empty). -/
def givenHeadOk (name : List Char) : Bool :=
  match givenOf name with
  | [] => true
  | c :: _ => isAsciiAlnum c

/-- Per-character restatement of the family normalization, following the
amended claim's words: each character is compatibility-decomposed, its
combining marks are stripped, characters outside ASCII letters and digits
are deleted, and the survivors are lowercased. -/
def normalizeFamilySpec (family : List Char) : List Char :=
  family.foldr
    (fun c acc =>
      ((((nfkdChar c).filter (fun d => !(isCombiningMark d))).filter
          isAsciiAlnum).map pyLower) ++ acc)
    []

/-- Family normalization as the claim literally states it, with Unicode
canonical decomposition in place of the compatibility decomposition the
source performs. -/
def normalizeFamilyCanonical (family : List Char) : List Char :=
  (((family.map canonicalDecompChar).flatten.filter
      (fun c => !(isCombiningMark c))).filter isAsciiAlnum).map pyLower

/-- Python string comparison on character lists: lexicographic by code
point. -/
def lexLe : List Char → List Char → Bool
  | [], _ => true
  | _ :: _, [] => false
  | a :: as, b :: bs =>
    if a.toNat < b.toNat then true
    else if b.toNat < a.toNat then false
    else lexLe as bs

/-- Python string comparison (`<=` on `str`), used by `sorted`. -/
def strLe (a b : String) : Bool := lexLe a.data b.data

/-- Insert a string into a sorted list of strings. -/
def insertStr (a : String) : List String → List String
  | [] => [a]
  | b :: r => if strLe a b then a :: b :: r else b :: insertStr a r

/-- Python's `sorted` on a collection of strings: ascending lexicographic
order (insertion sort). -/
def sortStr : List String → List String
  | [] => []
  | a :: r => insertStr a (sortStr r)

/-- Python's `sep.join(parts)`. -/
def joinParts (sep : String) : List String → String
  | [] => ""
  | [x] => x
  | x :: y :: r => x ++ sep ++ joinParts sep (y :: r)

/-- One triple of the parsed graph: subject, predicate, object, all URIs or
literals rendered as strings (`str(o)` in the source). -/
structure Triple where
  s : String
  p : String
  o : String
deriving DecidableEq, Repr

/-- The parsed graph, a finite collection of triples; list order models the
iteration order of `g.predicate_objects`. -/
def Graph := List Triple
deriving DecidableEq, Repr

/-- The `g.predicate_objects(subj)` call of the source: the (predicate,
object) pairs of the triples whose subject is `subj`, in graph order. -/
def predicate_objects (g : Graph) (subj : String) : List (String × String) :=
  (List.filter (fun t => t.s == subj) g).map (fun t => (t.p, t.o))

/-- NAME-bucket predicates of the source (line 106): `RDFS.label`,
`SCHEMA.name`, `VIAF.mainHead`, `MADS.authoritativeLabel`,
`SKOS.prefLabel`. -/
def namePreds : List String :=
  ["http://www.w3.org/2000/01/rdf-schema#label",
   "http://schema.org/name",
   "http://viaf.org/ontology/1.1#mainHead",
   "http://www.loc.gov/mads/rdf/v1#authoritativeLabel",
   "http://www.w3.org/2004/02/skos/core#prefLabel"]

/-- BIRTH-bucket predicates of the source (line 109). -/
def birthPreds : List String :=
  ["http://viaf.org/ontology/1.1#birthDate", "http://schema.org/birthDate"]

/-- DEATH-bucket predicates of the source (line 113). -/
def deathPreds : List String :=
  ["http://viaf.org/ontology/1.1#deathDate", "http://schema.org/deathDate"]

/-- Mutable resolution state of `parse_viaf_rdf`: the `name` variable and
the two value sets.  A Python `set` is modelled as a duplicate-free list in
insertion order. -/
structure RState where
  name : Option String
  birth_set : List String
  death_set : List String
deriving DecidableEq, Repr

/-- The state before any subject is scanned. -/
def initState : RState := { name := none, birth_set := [], death_set := [] }

/-- Python `set.add`: insert a value unless already present. -/
def addSet (s : List String) (v : String) : List String :=
  if v ∈ s then s else s ++ [v]

/-- Processing of one (predicate, object) pair inside
`extract_from_subject` (source lines 105-116): a NAME predicate overwrites
`name` with the stripped object (last write wins), BIRTH and DEATH
predicates add the stripped object to the corresponding set; empty stripped
values are ignored, and other predicates are skipped. -/
def stepPO (st : RState) (p o : String) : RState :=
  let v := String.mk (pyStrip o.data)
  if p ∈ namePreds then
    (if v.data.isEmpty then st else { st with name := some v })
  else if p ∈ birthPreds then
    (if v.data.isEmpty then st else { st with birth_set := addSet st.birth_set v })
  else if p ∈ deathPreds then
    (if v.data.isEmpty then st else { st with death_set := addSet st.death_set v })
  else st

/-- Source `extract_from_subject` (lines 103-116): fold `stepPO` over the
(predicate, object) pairs of the subject. -/
def extract_from_subject (g : Graph) (subj : String) (st : RState) : RState :=
  (predicate_objects g subj).foldl (fun st po => stepPO st po.1 po.2) st

/-- Whether the state holds at least one extracted attribute: the break
condition `if name or birth_set or death_set` of the source (line 120). -/
def nonEmptySt (st : RState) : Bool :=
  st.name.isSome || !st.birth_set.isEmpty || !st.death_set.isEmpty

/-- Candidate subject URIs in the order the source lists them (lines
96-101): http with trailing slash, http without, https with trailing
slash, https without. -/
def subjects (viaf : String) : List String :=
  ["http://viaf.org/viaf/" ++ viaf ++ "/",
   "http://viaf.org/viaf/" ++ viaf,
   "https://viaf.org/viaf/" ++ viaf ++ "/",
   "https://viaf.org/viaf/" ++ viaf]

/-- Candidate subject URIs in the order the claim states: http-no-slash,
http-slash, https-no-slash, https-slash. -/
def claimOrderSubjects (viaf : String) : List String :=
  ["http://viaf.org/viaf/" ++ viaf,
   "http://viaf.org/viaf/" ++ viaf ++ "/",
   "https://viaf.org/viaf/" ++ viaf,
   "https://viaf.org/viaf/" ++ viaf ++ "/"]

/-- Subject loop of the source (lines 118-121): extract from each subject
in turn and stop as soon as the state is non-empty. -/
def resolveLoop (g : Graph) (st : RState) : List String → RState
  | [] => st
  | s :: rest =>
    let st2 := extract_from_subject g s st
    if nonEmptySt st2 then st2 else resolveLoop g st2 rest

/-- Resolution state after the subject loop, starting from the empty state
over the source's candidate list. -/
def resolveSubjects (g : Graph) (viaf : String) : RState :=
  resolveLoop g initState (subjects viaf)

/-- The resolved record returned by `parse_viaf_rdf`: name, birth, death,
warning. -/
structure Record where
  name : Option String
  birth : Option String
  death : Option String
  warning : Option String
deriving DecidableEq, Repr

/-- Post-loop processing of `parse_viaf_rdf` (source lines 123-148): birth
and death are the heads of the sorted value sets, then repaired by
`fix_date`; a warning sentence is built for each set with more than one
value, listing the raw values in sorted order, the sentences joined by a
single space; the name gets its spacing repaired. -/
def finalize (st : RState) : Record :=
  let birthSorted := sortStr st.birth_set
  let deathSorted := sortStr st.death_set
  let birth := birthSorted.head?.map fix_date
  let death := deathSorted.head?.map fix_date
  let warning_parts : List String :=
    (if 1 < st.birth_set.length then
      ["Multiple birth dates: " ++ joinParts "; " birthSorted] else [])
    ++ (if 1 < st.death_set.length then
      ["Multiple death dates: " ++ joinParts "; " deathSorted] else [])
  let warning := if warning_parts.isEmpty then none
    else some (joinParts " " warning_parts)
  { name := st.name.map fix_name_spacing, birth := birth, death := death,
    warning := warning }

/-- Resolution of a successfully parsed graph: subject loop followed by the
post-loop processing. -/
def parse_graph (g : Graph) (viaf : String) : Record :=
  finalize (resolveSubjects g viaf)

/-- Resolution of a graph under the candidate order the claim states,
instead of the order the source lists. -/
def resolveClaimOrder (g : Graph) (viaf : String) : Record :=
  finalize (resolveLoop g initState (claimOrderSubjects viaf))

/-- A fatal termination of the process: the exit status and the truncated
raw dump printed with the diagnostic. -/
structure FatalExit where
  code : Nat
  printedRaw : List UInt8
deriving DecidableEq, Repr

/-- Source `parse_viaf_rdf` (lines 66-148).  The external graph parser (an
out-of-scope collaborator per the specification) is modelled by its
outcome: either a parsed graph or a parse error.  On a parse error the
source prints the first 2000 raw bytes and calls `sys.exit` with a message,
which terminates the process with status 1; no record is produced on that
path. -/
def parse_viaf_rdf (parsed : Except String Graph) (rdf_bytes : List UInt8)
    (viaf : String) : Except FatalExit Record :=
  match parsed with
  | Except.error _ => Except.error { code := 1, printedRaw := rdf_bytes.take 2000 }
  | Except.ok g => Except.ok (parse_graph g viaf)

/-- Example graph for the candidate-order counterexample: the http-slash
subject carries the label `bbb`, the http-no-slash subject the label
`aaa`. -/
def gOrder : Graph :=
  [{ s := "http://viaf.org/viaf/7/",
     p := "http://www.w3.org/2000/01/rdf-schema#label", o := "bbb" },
   { s := "http://viaf.org/viaf/7",
     p := "http://www.w3.org/2000/01/rdf-schema#label", o := "aaa" }]

/-- Example graph with two conflicting birth dates on the winning
subject. -/
def gTwoBirths : Graph :=
  [{ s := "http://viaf.org/viaf/7/",
     p := "http://schema.org/birthDate", o := "1520-01-01" },
   { s := "http://viaf.org/viaf/7/",
     p := "http://schema.org/birthDate", o := "1519-12-31" }]

/-- Example graph with a single repairable birth date on the winning
subject. -/
def gOneBirth : Graph :=
  [{ s := "http://viaf.org/viaf/7/",
     p := "http://schema.org/birthDate", o := "1520-03-00" }]

/-- Example graph with two conflicting birth dates whose minimum has the
repairable `YYYY-MM-00` shape. -/
def gRawWarn : Graph :=
  [{ s := "http://viaf.org/viaf/7/",
     p := "http://schema.org/birthDate", o := "1520-03-00" },
   { s := "http://viaf.org/viaf/7/",
     p := "http://schema.org/birthDate", o := "1521-01-01" }]

theorem fixSpacing_cons (a : Char) (r : List Char) :
    ∃ t, fixSpacing (a :: r) = a :: t := by
  cases r with
  | nil => exact ⟨[], rfl⟩
  | cons b r' =>
    by_cases h : (isAsciiLower a && isAsciiUpper b) = true
    · exact ⟨' ' :: fixSpacing (b :: r'), by simp [fixSpacing, h]⟩
    · exact ⟨fixSpacing (b :: r'), by simp [fixSpacing, h]⟩

theorem noLU_fixSpacing : ∀ l : List Char, noLUpair (fixSpacing l) = true
  | [] => rfl
  | [_] => rfl
  | a :: b :: r => by
    obtain ⟨t, ht⟩ := fixSpacing_cons b r
    have ih := noLU_fixSpacing (b :: r)
    by_cases h : (isAsciiLower a && isAsciiUpper b) = true
    · rw [fixSpacing, if_pos h, ht, noLUpair, noLUpair, ← ht]
      simp [ih, isAsciiUpper, isAsciiLower]
    · rw [fixSpacing, if_neg h, ht, noLUpair, ← ht]
      simp [ih, h]

theorem fixSpacing_of_noLU : ∀ l : List Char, noLUpair l = true → fixSpacing l = l
  | [], _ => rfl
  | [_], _ => rfl
  | a :: b :: r, h => by
    rw [noLUpair, Bool.and_eq_true, Bool.not_eq_true'] at h
    rw [fixSpacing, if_neg (by simp [h.1]), fixSpacing_of_noLU (b :: r) h.2]

/-- C8: the name-spacing repair is idempotent: repairing an
already-repaired string leaves it unchanged. -/
theorem claim8_idempotent (s : String) :
    fix_name_spacing (fix_name_spacing s) = fix_name_spacing s := by
  unfold fix_name_spacing
  exact congrArg String.mk (fixSpacing_of_noLU _ (noLU_fixSpacing s.data))

theorem lexLe_refl : ∀ l : List Char, lexLe l l = true
  | [] => rfl
  | a :: as => by simp [lexLe, lexLe_refl as]

theorem lexLe_total : ∀ a b : List Char, lexLe a b = true ∨ lexLe b a = true
  | [], _ => Or.inl rfl
  | _ :: _, [] => Or.inr rfl
  | a :: as, b :: bs => by
    rcases Nat.lt_trichotomy a.toNat b.toNat with h | h | h
    · left; simp [lexLe, h]
    · rcases lexLe_total as bs with h' | h'
      · left; simp [lexLe, h, h']
      · right; simp [lexLe, h, h']
    · right; simp [lexLe, h]

theorem lexLe_trans : ∀ a b c : List Char,
    lexLe a b = true → lexLe b c = true → lexLe a c = true
  | [], _, _, _, _ => rfl
  | _ :: _, [], _, h1, _ => by simp [lexLe] at h1
  | _ :: _, _ :: _, [], _, h2 => by simp [lexLe] at h2
  | a :: as, b :: bs, c :: cs, h1, h2 => by
    simp only [lexLe] at h1 h2 ⊢
    rcases Nat.lt_trichotomy a.toNat b.toNat with hab | hab | hab
    · rcases Nat.lt_trichotomy b.toNat c.toNat with hbc | hbc | hbc
      · simp [show a.toNat < c.toNat by omega]
      · simp [show a.toNat < c.toNat by omega]
      · rw [if_neg (by omega), if_pos hbc] at h2
        exact absurd h2 (by simp)
    · rw [if_neg (by omega), if_neg (by omega)] at h1
      rcases Nat.lt_trichotomy b.toNat c.toNat with hbc | hbc | hbc
      · simp [show a.toNat < c.toNat by omega]
      · rw [if_neg (by omega), if_neg (by omega)] at h2
        rw [if_neg (by omega), if_neg (by omega)]
        exact lexLe_trans as bs cs h1 h2
      · rw [if_neg (by omega), if_pos hbc] at h2
        exact absurd h2 (by simp)
    · rw [if_neg (by omega), if_pos hab] at h1
      exact absurd h1 (by simp)

theorem strLe_refl (a : String) : strLe a a = true := lexLe_refl a.data

theorem strLe_total (a b : String) : strLe a b = true ∨ strLe b a = true :=
  lexLe_total a.data b.data

theorem strLe_trans {a b c : String} (h1 : strLe a b = true)
    (h2 : strLe b c = true) : strLe a c = true :=
  lexLe_trans a.data b.data c.data h1 h2

theorem mem_insertStr (a : String) :
    ∀ (l : List String) (x : String), x ∈ insertStr a l ↔ x = a ∨ x ∈ l
  | [], x => by simp [insertStr]
  | b :: r, x => by
    by_cases h : strLe a b = true
    · simp [insertStr, h]
    · simp [insertStr, h, mem_insertStr a r x]
      tauto

theorem perm_insertStr (a : String) :
    ∀ l : List String, List.Perm (insertStr a l) (a :: l)
  | [] => List.Perm.refl _
  | b :: r => by
    by_cases h : strLe a b = true
    · simp [insertStr, h]
    · rw [insertStr, if_neg h]
      exact ((perm_insertStr a r).cons b).trans (List.Perm.swap a b r)

theorem perm_sortStr : ∀ l : List String, List.Perm (sortStr l) l
  | [] => List.Perm.refl _
  | a :: r => (perm_insertStr a (sortStr r)).trans ((perm_sortStr r).cons a)

theorem pairwise_insertStr (a : String) :
    ∀ l : List String, List.Pairwise (fun x y => strLe x y = true) l →
      List.Pairwise (fun x y => strLe x y = true) (insertStr a l)
  | [], _ => by simp [insertStr]
  | b :: r, h => by
    rcases List.pairwise_cons.mp h with ⟨hb, hr⟩
    by_cases hab : strLe a b = true
    · rw [insertStr, if_pos hab]
      refine List.pairwise_cons.mpr ⟨?_, h⟩
      intro y hy
      rcases List.mem_cons.mp hy with rfl | hy'
      · exact hab
      · exact strLe_trans hab (hb y hy')
    · rw [insertStr, if_neg hab]
      refine List.pairwise_cons.mpr ⟨?_, pairwise_insertStr a r hr⟩
      intro y hy
      rcases (mem_insertStr a r y).mp hy with heq | hy'
      · rw [heq]
        rcases strLe_total a b with h' | h'
        · exact absurd h' hab
        · exact h'
      · exact hb y hy'

theorem sorted_sortStr : ∀ l : List String,
    List.Pairwise (fun x y => strLe x y = true) (sortStr l)
  | [] => List.Pairwise.nil
  | a :: r => pairwise_insertStr a (sortStr r) (sorted_sortStr r)

theorem head_sortStr_le (l : List String) (hd : String) (t : List String)
    (h : sortStr l = hd :: t) : ∀ x ∈ l, strLe hd x = true := by
  intro x hx
  have hmem : x ∈ sortStr l := (perm_sortStr l).symm.subset hx
  rw [h] at hmem
  rcases List.mem_cons.mp hmem with rfl | hx'
  · exact strLe_refl x
  · have hp := sorted_sortStr l
    rw [h] at hp
    exact (List.pairwise_cons.mp hp).1 x hx'

theorem eq_initState_of_not_nonEmpty (st : RState)
    (h : nonEmptySt st = false) : st = initState := by
  obtain ⟨nm, bs, ds⟩ := st
  simp only [nonEmptySt] at h
  simp only [Bool.or_eq_false_iff, Bool.not_eq_false', Option.not_isSome,
    Option.isNone_iff_eq_none, List.isEmpty_iff, List.isEmpty_eq_true] at h
  simp [initState, h.1.1, h.1.2, h.2]

theorem resolveLoop_find (g : Graph) : ∀ ss : List String,
    resolveLoop g initState ss =
      (match ss.find? (fun s => nonEmptySt (extract_from_subject g s initState)) with
      | some s => extract_from_subject g s initState
      | none => initState)
  | [] => rfl
  | s :: rest => by
    by_cases h : nonEmptySt (extract_from_subject g s initState) = true
    · simp [resolveLoop, h, List.find?]
    · rw [Bool.not_eq_true] at h
      have hs := eq_initState_of_not_nonEmpty _ h
      simp only [resolveLoop, hs, h, Bool.false_eq_true, if_false, List.find?]
      exact resolveLoop_find g rest

/-- C1 (amended): the resolver tries exactly the four candidate subject
URIs in the order the source lists them — http-slash, http-no-slash,
https-slash, https-no-slash — and the resolved record is built from the
state extracted from the earliest candidate (in that order) that yields
any name, birth or death value; the empty state if none does. -/
theorem claim1_amended (g : Graph) (viaf : String) :
    subjects viaf =
      ["http://viaf.org/viaf/" ++ viaf ++ "/",
       "http://viaf.org/viaf/" ++ viaf,
       "https://viaf.org/viaf/" ++ viaf ++ "/",
       "https://viaf.org/viaf/" ++ viaf]
    ∧ parse_graph g viaf =
      finalize (match (subjects viaf).find?
          (fun s => nonEmptySt (extract_from_subject g s initState)) with
        | some s => extract_from_subject g s initState
        | none => initState) := by
  refine ⟨rfl, ?_⟩
  unfold parse_graph resolveSubjects
  rw [resolveLoop_find]

/-- C1 (counterexample): on a graph whose http-slash subject is labelled
`bbb` and whose http-no-slash subject is labelled `aaa`, the resolver
returns `bbb`, while resolution in the candidate order the claim states
(http-no-slash first) would return `aaa`. -/
theorem claim1_counterexample :
    (parse_graph gOrder "7").name = some "bbb"
    ∧ (resolveClaimOrder gOrder "7").name = some "aaa"
    ∧ (some "bbb" : Option String) ≠ some "aaa" := by
  refine ⟨by decide, by decide, by decide⟩

theorem dateShape_length (l : List Char) (h : dateShape l = true) :
    l.length = 10 := by
  unfold dateShape at h
  split at h
  · simp_all
  · exact absurd h (by simp)

theorem dateShape_eq_specCond : ∀ l : List Char,
    dateShape l = (decide (l.length = 10) && (l.take 4).all isAsciiDigit
      && (l.getD 4 ' ' == '-') && ((l.drop 5).take 2).all isAsciiDigit
      && (l.getD 7 ' ' == '-') && (l.getD 8 ' ' == '0')
      && (l.getD 9 ' ' == '0'))
  | [] => by simp [dateShape]
  | [_] => by simp [dateShape]
  | [_, _] => by simp [dateShape]
  | [_, _, _] => by simp [dateShape]
  | [_, _, _, _] => by simp [dateShape]
  | [_, _, _, _, _] => by simp [dateShape]
  | [_, _, _, _, _, _] => by simp [dateShape]
  | [_, _, _, _, _, _, _] => by simp [dateShape]
  | [_, _, _, _, _, _, _, _] => by simp [dateShape]
  | [_, _, _, _, _, _, _, _, _] => by simp [dateShape]
  | a :: b :: c :: d :: e :: f :: g2 :: h2 :: i :: j :: rest => by
    cases rest with
    | nil =>
      simp only [dateShape, List.length_cons, List.length_nil, List.take,
        List.drop, List.getD, List.get?_cons_succ, List.get?_cons_zero,
        List.all_cons, List.all_nil, Bool.and_true, Bool.and_assoc]
      rw [Bool.eq_iff_iff]
      simp only [Bool.and_eq_true, decide_eq_true_eq]
      constructor
      · intro hh
        simp_all
      · intro hh
        simp_all
    | cons k rest' => simp [dateShape]

theorem fix_date_eq_fixDateSpec (s : String) : fix_date s = fixDateSpec s := by
  unfold fix_date fixDateSpec
  rw [dateShape_eq_specCond]

/-- C2 (amended): the date repair rewrites every string of the exact shape
`DDDD-DD-00` — four digits, hyphen, two digits with the month `00`
included, hyphen, literal day `00` — to its four-digit year prefix, leaves
every other string unchanged, and is applied independently to the selected
birth and death values after the min-selection. -/
theorem claim2_amended :
    (∀ s : String, fix_date s = fixDateSpec s)
    ∧ fix_date "1520-03-00" = "1520"
    ∧ fix_date "1520-00-00" = "1520"
    ∧ fix_date "1520-03-01" = "1520-03-01"
    ∧ fix_date "1520" = "1520"
    ∧ (∀ st : RState,
        (finalize st).birth = (sortStr st.birth_set).head?.map fix_date
        ∧ (finalize st).death = (sortStr st.death_set).head?.map fix_date) :=
  ⟨fix_date_eq_fixDateSpec, by decide, by decide, by decide, by decide,
    fun _ => ⟨rfl, rfl⟩⟩

/-- C2 (counterexample): the claim exempts dates with month `00`, but the
source regex `\d{2}` also matches the month `00`, so `1520-00-00` is
rewritten to `1520` instead of being left unchanged. -/
theorem claim2_counterexample :
    fix_date "1520-00-00" = "1520" ∧ ("1520" : String) ≠ "1520-00-00" := by
  refine ⟨by decide, by decide⟩

theorem alnum_toNat_lt (c : Char) (h : isAsciiAlnum c = true) :
    c.toNat < 128 := by
  unfold isAsciiAlnum isAsciiLower isAsciiUpper isAsciiDigit at h
  simp only [Bool.or_eq_true, Bool.and_eq_true, decide_eq_true_eq] at h
  rcases h with (⟨_, h2⟩ | ⟨_, h2⟩) | ⟨_, h2⟩
  · have h2' : c.toNat ≤ 122 := h2
    omega
  · have h2' : c.toNat ≤ 90 := h2
    omega
  · have h2' : c.toNat ≤ 57 := h2
    omega

theorem slug_char_of_alnum : ∀ n : Nat, n < 128 →
    isAsciiAlnum (Char.ofNat n) = true →
    isSlugChar (pyLower (Char.ofNat n)) = true := by
  decide

theorem pyLower_slug (c : Char) (h : isAsciiAlnum c = true) :
    isSlugChar (pyLower c) = true := by
  have hlt := alnum_toNat_lt c h
  have hc : Char.ofNat c.toNat = c := Char.ofNat_toNat c
  have key := slug_char_of_alnum c.toNat hlt (by rwa [hc])
  rwa [hc] at key

theorem normalizeFamily_all (fam : List Char) :
    (normalizeFamily fam).all isSlugChar = true := by
  rw [List.all_eq_true]
  intro x hx
  unfold normalizeFamily at hx
  rcases List.mem_map.mp hx with ⟨d, hd, rfl⟩
  exact pyLower_slug d (List.mem_filter.mp hd).2

theorem mem_dropWhile_of_neg {p : Char → Bool} {c : Char} (hc : p c = false) :
    ∀ l : List Char, c ∈ l → c ∈ l.dropWhile p
  | a :: r, h => by
    by_cases ha : p a = true
    · rw [List.dropWhile_cons_of_pos ha]
      rcases List.mem_cons.mp h with heq | h'
      · subst heq
        exact absurd ha (by simp [hc])
      · exact mem_dropWhile_of_neg hc r h'
    · rw [Bool.not_eq_true] at ha
      rw [List.dropWhile_cons_of_neg (by simp [ha])]
      exact h

theorem mem_pyStrip {c : Char} (hc : isPySpace c = false) {l : List Char}
    (h : c ∈ l) : c ∈ pyStrip l := by
  unfold pyStrip
  rw [List.mem_reverse]
  apply mem_dropWhile_of_neg hc
  rw [List.mem_reverse]
  exact mem_dropWhile_of_neg hc l h

theorem pyStrip_not_empty {l : List Char} {c : Char} (hmem : c ∈ l)
    (hc : isPySpace c = false) : (pyStrip l).isEmpty = false := by
  have hin := mem_pyStrip hc hmem
  cases hstrip : pyStrip l with
  | nil => rw [hstrip] at hin; exact absurd hin (List.not_mem_nil c)
  | cons => rfl

theorem data_not_empty_of_strip {l : List Char}
    (h : (pyStrip l).isEmpty = false) : l.isEmpty = false := by
  cases l with
  | nil => exact absurd h (by decide)
  | cons => rfl

theorem generate_xml_id_nonblank (name viaf : String)
    (h : (pyStrip name.data).isEmpty = false) :
    generate_xml_id name viaf =
      String.mk ("pers-".data ++ normalizeFamily (familyOf name.data)
        ++ "-".data ++ givenInitial (givenOf name.data)) := by
  unfold generate_xml_id
  rw [if_neg (by simp [h, data_not_empty_of_strip h])]

theorem letter_not_space (c : Char) (h : isAsciiLetter c = true) :
    isPySpace c = false := by
  unfold isAsciiLetter isAsciiLower isAsciiUpper at h
  simp only [Bool.or_eq_true, Bool.and_eq_true, decide_eq_true_eq] at h
  have h65 : 65 ≤ c.toNat := by
    rcases h with ⟨h1, _⟩ | ⟨h1, _⟩
    · have h1' : 97 ≤ c.toNat := h1
      omega
    · exact h1
  unfold isPySpace
  simp only [Bool.or_eq_false_iff, decide_eq_false_iff_not]
  refine ⟨⟨⟨⟨⟨?_, ?_⟩, ?_⟩, ?_⟩, ?_⟩, ?_⟩ <;> intro heq
  · rw [heq] at h65; exact absurd h65 (by decide)
  · rw [heq] at h65; exact absurd h65 (by decide)
  · rw [heq] at h65; exact absurd h65 (by decide)
  · rw [heq] at h65; exact absurd h65 (by decide)
  · rw [heq] at h65; exact absurd h65 (by decide)
  · rw [heq] at h65; exact absurd h65 (by decide)

/-- C9: the slug function is deterministic, and for every name made of
ASCII letters and spaces that contains at least one letter the result is
independent of the identifier: the identifier is consulted only on the
blank-name fallback path. -/
theorem claim9_identifier_independent (name id1 id2 : String)
    (_hall : (name.data.all (fun c => isAsciiLetter c || c == ' ')) = true)
    (hany : (name.data.any isAsciiLetter) = true) :
    generate_xml_id name id1 = generate_xml_id name id2
    ∧ generate_xml_id name id1 = generate_xml_id name id1 := by
  rcases List.any_eq_true.mp hany with ⟨c, hmem, hletter⟩
  have hstrip := pyStrip_not_empty hmem (letter_not_space c hletter)
  rw [generate_xml_id_nonblank name id1 hstrip,
    generate_xml_id_nonblank name id2 hstrip]
  exact ⟨rfl, rfl⟩

/-- C9 witness: a concrete letters-and-spaces name yields the same slug
under two different identifiers. -/
theorem claim9_witness :
    generate_xml_id "Ann Bee" "1" = generate_xml_id "Ann Bee" "2" :=
  (claim9_identifier_independent "Ann Bee" "1" "2" (by decide) (by decide)).1

/-- C3 (amended): on the blank-name fallback path the slug is exactly
`pers-viaf-` followed by the identifier verbatim; for every non-blank name
whose given string starts with an ASCII alphanumeric character (or is
empty), every character of the slug is a hyphen, a lowercase ASCII letter
or an ASCII digit. -/
theorem claim3_amended (name viaf : String) :
    ((name.data.isEmpty || (pyStrip name.data).isEmpty) = true →
      generate_xml_id name viaf = "pers-viaf-" ++ viaf)
    ∧ ((pyStrip name.data).isEmpty = false → givenHeadOk name.data = true →
      ((generate_xml_id name viaf).data.all isSlugChar) = true) := by
  constructor
  · intro h
    unfold generate_xml_id
    rw [if_pos h]
  · intro h1 h2
    rw [generate_xml_id_nonblank name viaf h1]
    show (("pers-".data ++ normalizeFamily (familyOf name.data) ++ "-".data
      ++ givenInitial (givenOf name.data)).all isSlugChar) = true
    simp only [List.all_append, Bool.and_eq_true]
    refine ⟨⟨⟨by decide, normalizeFamily_all _⟩, by decide⟩, ?_⟩
    unfold givenHeadOk at h2
    cases hg : givenOf name.data with
    | nil => simp [givenInitial]
    | cons c rest =>
      rw [hg] at h2
      simp only [] at h2
      simp [givenInitial, pyLower_slug c h2]

/-- C3 witness: the fallback equation at a concrete blank name, and the
character-class invariant at a concrete two-token name. -/
theorem claim3_witness :
    generate_xml_id "" "99" = "pers-viaf-99"
    ∧ ((generate_xml_id "Ann Bee" "7").data.all isSlugChar) = true :=
  ⟨(claim3_amended "" "99").1 (by decide),
   (claim3_amended "Ann Bee" "7").2 (by decide) (by decide)⟩

/-- C3 (counterexample): the fallback path copies the identifier verbatim,
so an identifier with an uppercase letter and a space survives into the
slug; and a non-ASCII given initial survives lowercasing, so the slug of a
name with given token `élie` contains a non-ASCII character. -/
theorem claim3_counterexample :
    generate_xml_id "" "A b" = "pers-viaf-A b"
    ∧ ((generate_xml_id "" "A b").data.all isSlugChar) = false
    ∧ generate_xml_id "élie Durand" "1" = "pers-durand-é"
    ∧ ((generate_xml_id "élie Durand" "1").data.all
        (fun c => decide (c.toNat < 128))) = false := by
  refine ⟨by decide, by decide, by decide, by decide⟩

/-- C4 (amended): with at least two tokens the slug is built from the
first token (given) and the last token (family); with fewer than two
tokens the code uses the whole spacing-repaired name string as both family
and given — which equals the single token only when the name has no
surrounding whitespace — and the two cited example slugs hold. -/
theorem claim4_amended :
    (∀ name viaf : String, (pyStrip name.data).isEmpty = false →
      (2 ≤ (theTokens name.data).length →
        generate_xml_id name viaf = String.mk ("pers-".data
          ++ normalizeFamily (lastTok (theTokens name.data)) ++ "-".data
          ++ givenInitial ((theTokens name.data).headD [])))
      ∧ ((theTokens name.data).length < 2 →
        generate_xml_id name viaf = String.mk ("pers-".data
          ++ normalizeFamily (fixSpacing name.data) ++ "-".data
          ++ givenInitial (fixSpacing name.data))))
    ∧ generate_xml_id "Gian Galeazzo Sanseverino" "123" = "pers-sanseverino-g"
    ∧ generate_xml_id "Madeleine" "55" = "pers-madeleine-m" := by
  refine ⟨?_, by decide, by decide⟩
  intro name viaf h
  constructor
  · intro hlen
    rw [generate_xml_id_nonblank name viaf h]
    unfold familyOf givenOf
    rw [if_pos hlen, if_pos hlen]
  · intro hlen
    rw [generate_xml_id_nonblank name viaf h]
    unfold familyOf givenOf
    rw [if_neg (by omega), if_neg (by omega)]

/-- C4 witness: the one-token branch applied to a name with leading
whitespace. -/
theorem claim4_witness :
    generate_xml_id " Madeleine" "55" = String.mk ("pers-".data
      ++ normalizeFamily (fixSpacing " Madeleine".data) ++ "-".data
      ++ givenInitial (fixSpacing " Madeleine".data)) :=
  (claim4_amended.1 " Madeleine" "55" (by decide)).2 (by decide)

/-- C4 (counterexample): for the one-token name ` Madeleine` (leading
space) the code takes the given initial from the whole string, whose first
character is the space, so the slug ends in a space instead of `m`. -/
theorem claim4_counterexample :
    generate_xml_id " Madeleine" "55" = "pers-madeleine- "
    ∧ ("pers-madeleine- " : String) ≠ "pers-madeleine-m" := by
  refine ⟨by decide, by decide⟩

theorem normalizeFamily_eq_spec : ∀ fam : List Char,
    normalizeFamily fam = normalizeFamilySpec fam
  | [] => rfl
  | c :: r => by
    have ih := normalizeFamily_eq_spec r
    unfold normalizeFamily at ih ⊢
    unfold normalizeFamilySpec at ih ⊢
    simp only [List.map_cons, List.flatten_cons, List.filter_append,
      List.map_append, List.foldr_cons]
    rw [ih]

/-- C5 (amended): the family token is normalized by Unicode compatibility
(NFKD) decomposition — not canonical decomposition — followed by stripping
combining marks, deleting characters outside ASCII letters and digits, and
lowercasing; the slug of every non-blank name embeds that normalization of
its family string, and the cited diacritic example holds. -/
theorem claim5_amended :
    (∀ fam : List Char, normalizeFamily fam = normalizeFamilySpec fam)
    ∧ (∀ name viaf : String, (pyStrip name.data).isEmpty = false →
        generate_xml_id name viaf = String.mk ("pers-".data
          ++ normalizeFamilySpec (familyOf name.data) ++ "-".data
          ++ givenInitial (givenOf name.data)))
    ∧ generate_xml_id "Charles de Téligny" "9" = "pers-teligny-c" := by
  refine ⟨normalizeFamily_eq_spec, ?_, by decide⟩
  intro name viaf h
  rw [generate_xml_id_nonblank name viaf h, normalizeFamily_eq_spec]

/-- C5 witness: the normalization equation instantiated at the cited
diacritic example. -/
theorem claim5_witness :
    generate_xml_id "Charles de Téligny" "9" = String.mk ("pers-".data
      ++ normalizeFamilySpec (familyOf "Charles de Téligny".data) ++ "-".data
      ++ givenInitial (givenOf "Charles de Téligny".data)) :=
  claim5_amended.2.1 "Charles de Téligny" "9" (by decide)

/-- C5 (counterexample): the source decomposes with NFKD, not canonical
decomposition: on the family token `Dupont²` canonical decomposition
leaves the superscript (which is then deleted as non-alphanumeric, giving
`dupont`), while the code's compatibility decomposition turns it into the
digit `2`, giving the slug `pers-dupont2-h`. -/
theorem claim5_counterexample :
    generate_xml_id "Henri Dupont²" "1" = "pers-dupont2-h"
    ∧ normalizeFamilyCanonical "Dupont²".data = "dupont".data
    ∧ normalizeFamily "Dupont²".data = "dupont2".data
    ∧ ("pers-dupont2-h" : String) ≠ "pers-dupont-h" := by
  refine ⟨by decide, by decide, by decide, by decide⟩

/-- C6 (amended): for the winning subject, birth and death values are
collected into duplicate-free sets; the value selected for each field is
the lexicographically smallest of its set and the reported field is its
date-repair (they coincide whenever the smallest value does not have the
`YYYY-MM-00` shape); each set with more than one value produces a warning
sentence listing all its distinct values in ascending order with the
stated prefix, and when both sets are ambiguous the two sentences are
joined by a single space. -/
theorem claim6_amended (g : Graph) (viaf : String) :
    ((parse_graph g viaf).birth
        = (sortStr (resolveSubjects g viaf).birth_set).head?.map fix_date
      ∧ (parse_graph g viaf).death
        = (sortStr (resolveSubjects g viaf).death_set).head?.map fix_date)
    ∧ (List.Perm (sortStr (resolveSubjects g viaf).birth_set)
          (resolveSubjects g viaf).birth_set
      ∧ List.Pairwise (fun a b => strLe a b = true)
          (sortStr (resolveSubjects g viaf).birth_set)
      ∧ List.Perm (sortStr (resolveSubjects g viaf).death_set)
          (resolveSubjects g viaf).death_set
      ∧ List.Pairwise (fun a b => strLe a b = true)
          (sortStr (resolveSubjects g viaf).death_set))
    ∧ (∀ hd t, sortStr (resolveSubjects g viaf).birth_set = hd :: t →
        ∀ x ∈ (resolveSubjects g viaf).birth_set, strLe hd x = true)
    ∧ (∀ hd t, sortStr (resolveSubjects g viaf).death_set = hd :: t →
        ∀ x ∈ (resolveSubjects g viaf).death_set, strLe hd x = true)
    ∧ (1 < (resolveSubjects g viaf).birth_set.length →
        (resolveSubjects g viaf).death_set.length ≤ 1 →
        (parse_graph g viaf).warning = some ("Multiple birth dates: "
          ++ joinParts "; " (sortStr (resolveSubjects g viaf).birth_set)))
    ∧ ((resolveSubjects g viaf).birth_set.length ≤ 1 →
        1 < (resolveSubjects g viaf).death_set.length →
        (parse_graph g viaf).warning = some ("Multiple death dates: "
          ++ joinParts "; " (sortStr (resolveSubjects g viaf).death_set)))
    ∧ (1 < (resolveSubjects g viaf).birth_set.length →
        1 < (resolveSubjects g viaf).death_set.length →
        (parse_graph g viaf).warning = some (("Multiple birth dates: "
            ++ joinParts "; " (sortStr (resolveSubjects g viaf).birth_set))
          ++ " " ++ ("Multiple death dates: "
            ++ joinParts "; " (sortStr (resolveSubjects g viaf).death_set))))
    ∧ ((resolveSubjects g viaf).birth_set.length ≤ 1 →
        (resolveSubjects g viaf).death_set.length ≤ 1 →
        (parse_graph g viaf).warning = none) := by
  refine ⟨⟨rfl, rfl⟩,
    ⟨perm_sortStr _, sorted_sortStr _, perm_sortStr _, sorted_sortStr _⟩,
    fun hd t heq x hx => head_sortStr_le _ hd t heq x hx,
    fun hd t heq x hx => head_sortStr_le _ hd t heq x hx,
    ?_, ?_, ?_, ?_⟩
  · intro h1 h2
    have h2' : ¬(1 < (resolveSubjects g viaf).death_set.length) := by omega
    simp [parse_graph, finalize, h1, h2', joinParts]
  · intro h1 h2
    have h1' : ¬(1 < (resolveSubjects g viaf).birth_set.length) := by omega
    simp [parse_graph, finalize, h1', h2, joinParts]
  · intro h1 h2
    simp [parse_graph, finalize, h1, h2, joinParts]
  · intro h1 h2
    have h1' : ¬(1 < (resolveSubjects g viaf).birth_set.length) := by omega
    have h2' : ¬(1 < (resolveSubjects g viaf).death_set.length) := by omega
    simp [parse_graph, finalize, h1', h2']

/-- C6 witness: with the two conflicting birth dates of the claim's
instance, the resolved birth is the lexicographically smaller value and
the warning lists both values in ascending order. -/
theorem claim6_witness :
    (parse_graph gTwoBirths "7").birth = some "1519-12-31"
    ∧ (parse_graph gTwoBirths "7").warning
        = some "Multiple birth dates: 1519-12-31; 1520-01-01" := by
  have h := claim6_amended gTwoBirths "7"
  constructor
  · exact h.1.1.trans (by decide)
  · exact (h.2.2.2.2.1 (by decide) (by decide)).trans (by decide)

/-- C6 (counterexample): with the single birth value `1520-03-00`, the
lexicographically smallest (indeed only) string of the set is
`1520-03-00`, but the reported birth is the repaired `1520`, which is not
an element of the set. -/
theorem claim6_counterexample :
    (parse_graph gOneBirth "7").birth = some "1520"
    ∧ (resolveSubjects gOneBirth "7").birth_set = ["1520-03-00"]
    ∧ sortStr ["1520-03-00"] = ["1520-03-00"]
    ∧ (some "1520" : Option String) ≠ some "1520-03-00" := by
  refine ⟨by decide, by decide, by decide, by decide⟩

/-- C7: when the external parse of the raw bytes fails, the resolver
terminates fatally with exit status 1, the printed diagnostic carries the
first 2000 raw bytes (a truncated prefix of the input), and no record is
produced. -/
theorem claim7_parse_failure (parsed : Except String Graph)
    (raw : List UInt8) (viaf : String) (e : String)
    (h : parsed = Except.error e) :
    parse_viaf_rdf parsed raw viaf
      = Except.error { code := 1, printedRaw := raw.take 2000 }
    ∧ (∀ r : Record, parse_viaf_rdf parsed raw viaf ≠ Except.ok r)
    ∧ FatalExit.code { code := 1, printedRaw := raw.take 2000 } ≠ 0
    ∧ (∃ rest, raw = raw.take 2000 ++ rest)
    ∧ (raw.take 2000).length ≤ 2000 := by
  subst h
  refine ⟨rfl, ?_, Nat.one_ne_zero,
    ⟨raw.drop 2000, (List.take_append_drop 2000 raw).symm⟩, ?_⟩
  · intro r hr
    simp [parse_viaf_rdf] at hr
  · rw [List.length_take]
    omega

/-- C7 witness: a concrete parse error on two raw bytes. -/
theorem claim7_witness :
    parse_viaf_rdf (Except.error "boom") [104, 105] "7"
      = Except.error { code := 1, printedRaw := [104, 105] } := by
  have h := claim7_parse_failure (Except.error "boom") [104, 105] "7" "boom" rfl
  exact h.1.trans (congrArg Except.error (by decide))

/-- C10: when the winning subject has more than one distinct birth value
and the smallest has the `YYYY-MM-00` shape, the record's birth holds the
repaired year-only string while the warning still begins with the sentence
listing the raw, unrepaired values — so the value named in the warning
differs from the value reported in the record. -/
theorem claim10_warning_raw (g : Graph) (viaf hd : String) (t : List String)
    (h1 : sortStr (resolveSubjects g viaf).birth_set = hd :: t)
    (h2 : t ≠ []) (h3 : dateShape hd.data = true) :
    (parse_graph g viaf).birth = some (String.mk (hd.data.take 4))
    ∧ (∃ w, (parse_graph g viaf).warning = some w
        ∧ ∃ rest, w.data
            = ("Multiple birth dates: " ++ joinParts "; " (hd :: t)).data ++ rest)
    ∧ String.mk (hd.data.take 4) ≠ hd := by
  have hb : (parse_graph g viaf).birth = some (fix_date hd) := by
    show (finalize (resolveSubjects g viaf)).birth = _
    simp [finalize, h1]
  have hfix : fix_date hd = String.mk (hd.data.take 4) := by
    unfold fix_date
    rw [if_pos h3]
  have hlen10 : hd.data.length = 10 := dateShape_length hd.data h3
  have hlenset : 1 < (resolveSubjects g viaf).birth_set.length := by
    have hp := (perm_sortStr (resolveSubjects g viaf).birth_set).length_eq
    rw [h1] at hp
    have ht : 0 < t.length := List.length_pos.mpr h2
    simp only [List.length_cons] at hp
    omega
  refine ⟨hb.trans (congrArg some hfix), ?_, ?_⟩
  · by_cases hdn : 1 < (resolveSubjects g viaf).death_set.length
    · refine ⟨("Multiple birth dates: " ++ joinParts "; " (hd :: t)) ++ " "
        ++ ("Multiple death dates: "
          ++ joinParts "; " (sortStr (resolveSubjects g viaf).death_set)),
        ?_, (" " ++ ("Multiple death dates: "
          ++ joinParts "; " (sortStr (resolveSubjects g viaf).death_set))).data,
        by simp⟩
      show (finalize (resolveSubjects g viaf)).warning = _
      simp [finalize, hlenset, hdn, h1, joinParts]
    · refine ⟨"Multiple birth dates: " ++ joinParts "; " (hd :: t), ?_, [],
        by simp⟩
      show (finalize (resolveSubjects g viaf)).warning = _
      simp [finalize, hlenset, hdn, h1, joinParts]
  · intro heq
    have hdata := congrArg String.data heq
    simp only [] at hdata
    have hlen := congrArg List.length hdata
    rw [List.length_take, hlen10] at hlen
    omega

/-- C10 witness: with raw birth values `1520-03-00` and `1521-01-01`, the
record reports the repaired `1520` while the warning lists the raw
`1520-03-00`. -/
theorem claim10_witness :
    (parse_graph gRawWarn "7").birth = some "1520"
    ∧ ∃ w, (parse_graph gRawWarn "7").warning = some w
        ∧ ∃ rest, w.data = ("Multiple birth dates: "
            ++ joinParts "; " ["1520-03-00", "1521-01-01"]).data ++ rest := by
  have h := claim10_warning_raw gRawWarn "7" "1520-03-00" ["1521-01-01"]
    (by decide) (by decide) (by decide)
  exact ⟨h.1.trans (by decide), h.2.1⟩

end PersNamer
